/-
Verification of the map-tiles crawler (`crawler.py`).

The development shallowly embeds the crawler's components:
  * `find_tile`          — the Web-Mercator projection (`Crawler.find_tile`),
                           over exact real numbers, with Python's `int()`
                           truncation toward zero modelled by `truncInt`;
  * `find_tile_checked`  — the same computation with Python's arithmetic
                           error behaviour made explicit (`float` division by
                           zero and `math.log` of a non-positive argument
                           raise, modelled as `Except.error`);
  * `enumerateTiles`     — the nested `range` loops of `Crawler.crawl_box`;
  * `replace_path_tile`, `urlparsePath`, `pathSuffix`, `mkTarget`
                         — the source/target path construction of
                           `Crawler.crawl_box` (with `str.format`,
                           `urllib.parse.urlparse(...).path` and
                           `pathlib.Path(...).suffix` modelled explicitly);
  * `download_tile`      — the fetch-and-persist task, state-passing over an
                           explicit filesystem model so that side effects of
                           failing runs stay observable;
  * `PoolState`/`PoolStep` — a small-step semantics of the `asyncio.Queue`
                           worker pool of `worker`/`Crawler.crawl_box`.
-/
import Mathlib

namespace Crawler

/-- The `Tile` dataclass of `crawler.py`: tile indices `x`, `y` and zoom `z`. -/
structure Tile where
  x : Int
  y : Int
  z : Int
deriving DecidableEq, Repr

/-- Python's `int()` applied to a real value: truncation toward zero
(floor for non-negative arguments, ceiling for negative ones). -/
noncomputable def truncInt (r : ℝ) : Int :=
  if 0 ≤ r then ⌊r⌋ else -⌊-r⌋

/-- The `tile_size` field set in `Crawler.__init__`. -/
def tile_size : ℝ := 256

/-- Model of `Crawler.find_tile` over exact reals:
`sin_latitude = sin(latitude * π / 180)`,
`pixel_x = ((longitude + 180) / 360) * tile_size * 2 ** level`,
`pixel_y = (0.5 - log((1 + sin_latitude) / (1 - sin_latitude)) / (4π)) * tile_size * 2 ** level`,
returning `Tile(x=int(pixel_x / tile_size), y=int(pixel_y / tile_size), z=level)`. -/
noncomputable def find_tile (latitude longitude : ℝ) (level : ℕ) : Tile :=
  let sin_latitude := Real.sin (latitude * Real.pi / 180)
  let pixel_x := ((longitude + 180) / 360) * tile_size * 2 ^ level
  let pixel_y :=
    (0.5 - Real.log ((1 + sin_latitude) / (1 - sin_latitude)) / (4 * Real.pi))
      * tile_size * 2 ^ level
  { x := truncInt (pixel_x / tile_size)
    y := truncInt (pixel_y / tile_size)
    z := (level : Int) }

/-- Model of `Crawler.find_tile` with Python's arithmetic error behaviour explicit:
`(1 + s) / (1 - s)` raises `ZeroDivisionError` when `1 - s = 0`, and
`math.log` raises `ValueError: math domain error` on a non-positive
argument; otherwise no exception is raised and the `Tile` of `find_tile`
is returned. -/
noncomputable def find_tile_checked (latitude longitude : ℝ) (level : ℕ) :
    Except String Tile :=
  let sin_latitude := Real.sin (latitude * Real.pi / 180)
  if 1 - sin_latitude = 0 then
    .error "float division by zero"
  else if (1 + sin_latitude) / (1 - sin_latitude) ≤ 0 then
    .error "math domain error"
  else
    .ok (find_tile latitude longitude level)

/-- Python's `range(a, b)` over integers, as the list `[a, a+1, …, b-1]`
(empty when `b ≤ a`). -/
def intRange (a b : Int) : List Int :=
  (List.range (b - a).toNat).map (fun (i : ℕ) => a + (i : Int))

/-- The tile enumeration of `Crawler.crawl_box`:
`for x in range(bb[0].x, bb[1].x + 1): for y in range(bb[0].y, bb[1].y + 1):
Tile(x=x, y=y, z=bb[0].z)`. -/
def enumerateTiles (corner1 corner2 : Tile) : List Tile :=
  (intRange corner1.x (corner2.x + 1)).flatMap fun x =>
    (intRange corner1.y (corner2.y + 1)).map fun y =>
      { x := x, y := y, z := corner1.z }

/-! ### Projection bounds (claim C1) -/

theorem truncInt_of_nonneg {r : ℝ} (h : 0 ≤ r) : truncInt r = ⌊r⌋ :=
  if_pos h

theorem find_tile_x_eq (latitude longitude : ℝ) (level : ℕ) :
    (find_tile latitude longitude level).x
      = truncInt ((longitude + 180) / 360 * 2 ^ level) := by
  have h : (longitude + 180) / 360 * tile_size * 2 ^ level / tile_size
      = (longitude + 180) / 360 * 2 ^ level := by
    rw [tile_size]; ring
  simp only [find_tile]
  rw [h]

theorem find_tile_y_eq (latitude longitude : ℝ) (level : ℕ) :
    (find_tile latitude longitude level).y
      = truncInt ((0.5 - Real.log ((1 + Real.sin (latitude * Real.pi / 180))
          / (1 - Real.sin (latitude * Real.pi / 180))) / (4 * Real.pi)) * 2 ^ level) := by
  have h : (0.5 - Real.log ((1 + Real.sin (latitude * Real.pi / 180))
        / (1 - Real.sin (latitude * Real.pi / 180))) / (4 * Real.pi))
          * tile_size * 2 ^ level / tile_size
      = (0.5 - Real.log ((1 + Real.sin (latitude * Real.pi / 180))
          / (1 - Real.sin (latitude * Real.pi / 180))) / (4 * Real.pi)) * 2 ^ level := by
    rw [tile_size]; ring
  simp only [find_tile]
  rw [h]

theorem truncInt_unit_bounds {u : ℝ} (level : ℕ) (h0 : 0 ≤ u) (h1 : u < 1) :
    0 ≤ truncInt (u * 2 ^ level) ∧ truncInt (u * 2 ^ level) < 2 ^ level := by
  have hr : 0 ≤ u * 2 ^ level := mul_nonneg h0 (by positivity)
  rw [truncInt_of_nonneg hr]
  refine ⟨Int.floor_nonneg.2 hr, ?_⟩
  rw [Int.floor_lt]
  push_cast
  have h2 : u * 2 ^ level < 1 * 2 ^ level :=
    mul_lt_mul_of_pos_right h1 (by positivity)
  linarith

/-- C1 (amended): `find_tile` returns indices with `0 ≤ x < 2^level` and
`0 ≤ y < 2^level` for longitude in the half-open band `[-180, 180)` and for
latitudes whose Mercator log term `log((1+sin)/(1-sin))` lies in
`(-2π, 2π]` (equivalently `|lat|` at most ≈ 85.0511°, the standard
Web-Mercator latitude cutoff).  At `lon = 180` the x index reaches
`2^level`, and for latitudes beyond the cutoff (still strictly between
-90 and 90) the y index escapes the range, so the original full claim
fails (see `find_tile_out_of_bounds`). -/
theorem find_tile_in_bounds (latitude longitude : ℝ) (level : ℕ)
    (hlon1 : -180 ≤ longitude) (hlon2 : longitude < 180)
    (hL1 : -(2 * Real.pi) < Real.log ((1 + Real.sin (latitude * Real.pi / 180))
      / (1 - Real.sin (latitude * Real.pi / 180))))
    (hL2 : Real.log ((1 + Real.sin (latitude * Real.pi / 180))
      / (1 - Real.sin (latitude * Real.pi / 180))) ≤ 2 * Real.pi) :
    0 ≤ (find_tile latitude longitude level).x ∧
      (find_tile latitude longitude level).x < 2 ^ level ∧
      0 ≤ (find_tile latitude longitude level).y ∧
      (find_tile latitude longitude level).y < 2 ^ level := by
  have hπ := Real.pi_pos
  have h4π : (0:ℝ) < 4 * Real.pi := by linarith
  rw [find_tile_x_eq, find_tile_y_eq]
  set L := Real.log ((1 + Real.sin (latitude * Real.pi / 180))
    / (1 - Real.sin (latitude * Real.pi / 180))) with hLdef
  have h12 : (2 * Real.pi) / (4 * Real.pi) = 1 / 2 := by
    rw [div_eq_iff (ne_of_gt h4π)]; ring
  have h12n : (-(2 * Real.pi)) / (4 * Real.pi) = -(1 / 2) := by
    rw [div_eq_iff (ne_of_gt h4π)]; ring
  have hx := truncInt_unit_bounds (u := (longitude + 180) / 360) level
    (div_nonneg (by linarith) (by norm_num))
    (by rw [div_lt_one (by norm_num)]; linarith)
  have hvle : L / (4 * Real.pi) ≤ 1 / 2 := by
    rw [← h12]; exact (div_le_div_iff_of_pos_right h4π).2 hL2
  have hvgt : -(1 / 2) < L / (4 * Real.pi) := by
    rw [← h12n]; exact (div_lt_div_iff_of_pos_right h4π).2 hL1
  have hy := truncInt_unit_bounds (u := 0.5 - L / (4 * Real.pi)) level
    (by norm_num at hvle ⊢; linarith) (by norm_num at hvgt ⊢; linarith)
  exact ⟨hx.1, hx.2, hy.1, hy.2⟩

/-- C1 witness: at latitude 0, longitude 0 and level 0 the hypotheses hold
and the returned tile indices lie within `[0, 2^0)`. -/
theorem find_tile_in_bounds_witness :
    0 ≤ (find_tile 0 0 0).x ∧ (find_tile 0 0 0).x < 2 ^ 0 ∧
      0 ≤ (find_tile 0 0 0).y ∧ (find_tile 0 0 0).y < 2 ^ 0 := by
  have hπ := Real.pi_pos
  refine find_tile_in_bounds 0 0 0 (by norm_num) (by norm_num) ?_ ?_ <;>
    · rw [show (0:ℝ) * Real.pi / 180 = 0 by ring]
      rw [Real.sin_zero]
      norm_num
      linarith

theorem exp_two_pi_le : Real.exp (2 * Real.pi) ≤ 500000 := by
  have h1 : Real.exp (2 * Real.pi) ≤ Real.exp 7 :=
    Real.exp_le_exp.2 (by have := Real.pi_lt_d2; linarith)
  have h2 : Real.exp 7 = Real.exp 1 ^ (7:ℕ) := by
    rw [← Real.exp_nat_mul]; norm_num
  have h3 : Real.exp 1 ^ (7:ℕ) < 2.7182818286 ^ (7:ℕ) :=
    pow_lt_pow_left₀ Real.exp_one_lt_d9 (le_of_lt (Real.exp_pos 1)) (by norm_num)
  have h4 : (2.7182818286:ℝ) ^ (7:ℕ) < 500000 := by norm_num
  linarith

theorem cos_small_lt_one : Real.cos (Real.pi / 1800) < 1 := by
  have hπ := Real.pi_pos
  rcases lt_or_eq_of_le (Real.cos_le_one (Real.pi / 1800)) with h | h
  · exact h
  · exfalso
    have h0 : Real.pi / 1800 = 0 :=
      (Real.cos_eq_one_iff_of_lt_of_lt (by linarith) (by linarith)).1 h
    have : Real.pi = 0 := by linarith
    linarith

/-- C1 counterexample: the claim fails on both indices.  At
`(lat, lon, level) = (0, 180, 0)` (longitude at the right edge of the
claimed closed band `[-180, 180]`) the x index is `2^0 = 1`, violating
`x < 2^level`; and at `(lat, lon, level) = (-89.9, 0, 0)` (a latitude
strictly between -90 and 90) the y index is at least 1, violating
`y < 2^level`. -/
theorem find_tile_out_of_bounds :
    ¬ ((find_tile 0 180 0).x < 2 ^ (0:ℕ)) ∧
      ¬ ((find_tile (-(899/10)) 0 0).y < 2 ^ (0:ℕ)) := by
  constructor
  · rw [find_tile_x_eq]
    have h : ((180:ℝ) + 180) / 360 * 2 ^ (0:ℕ) = 1 := by norm_num
    rw [h, truncInt_of_nonneg (by norm_num)]
    norm_num
  · rw [find_tile_y_eq]
    have hπ := Real.pi_pos
    have hπlt : Real.pi < 3.15 := Real.pi_lt_d2
    -- the sine at -89.9° is minus the cosine of the small angle π/1800
    have hs : Real.sin (-(899/10) * Real.pi / 180) = -Real.cos (Real.pi / 1800) := by
      have h1 : (-(899/10) : ℝ) * Real.pi / 180 = -(Real.pi / 2 - Real.pi / 1800) := by
        ring
      rw [h1, Real.sin_neg, Real.sin_pi_div_two_sub]
    rw [hs]
    set c := Real.cos (Real.pi / 1800) with hc
    have hc_lt : c < 1 := cos_small_lt_one
    have hc_ge : 1 - (Real.pi / 1800) ^ 2 / 2 ≤ c := Real.one_sub_sq_div_two_le_cos
    have hsmall : Real.pi / 1800 ≤ 0.00175 := by linarith
    have hsq : (Real.pi / 1800) ^ 2 ≤ 0.00175 ^ 2 := by
      have h0 : (0:ℝ) ≤ Real.pi / 1800 := by positivity
      exact pow_le_pow_left₀ h0 hsmall 2
    have hcb : (0.999996 : ℝ) ≤ c := by nlinarith
    -- bound the Mercator log term from above by -2π
    have hratio_pos : 0 < (1 + -c) / (1 - -c) := by
      apply div_pos <;> nlinarith
    have hratio_le : (1 + -c) / (1 - -c) ≤ 0.000002 := by
      rw [div_le_iff₀ (by nlinarith)]
      nlinarith
    have hlog1 : Real.log ((1 + -c) / (1 - -c)) ≤ Real.log 0.000002 :=
      (Real.log_le_log_iff hratio_pos (by norm_num)).2 hratio_le
    have hlog2 : Real.log 0.000002 ≤ -(2 * Real.pi) := by
      rw [Real.log_le_iff_le_exp (by norm_num), Real.exp_neg]
      have hinv : (500000:ℝ)⁻¹ ≤ (Real.exp (2 * Real.pi))⁻¹ :=
        inv_anti₀ (Real.exp_pos _) exp_two_pi_le
      have : ((0.000002:ℝ)) = (500000:ℝ)⁻¹ := by norm_num
      linarith
    have hL : Real.log ((1 + -c) / (1 - -c)) ≤ -(2 * Real.pi) := le_trans hlog1 hlog2
    -- hence the fractional y coordinate is at least 1
    have h4π : (0:ℝ) < 4 * Real.pi := by linarith
    have hvdiv : Real.log ((1 + -c) / (1 - -c)) / (4 * Real.pi) ≤ -(1/2) := by
      have h12n : (-(2 * Real.pi)) / (4 * Real.pi) = -(1 / 2) := by
        rw [div_eq_iff (ne_of_gt h4π)]; ring
      rw [← h12n]
      exact (div_le_div_iff_of_pos_right h4π).2 hL
    have hv : (1:ℝ) ≤ (0.5 - Real.log ((1 + -c) / (1 - -c)) / (4 * Real.pi)) * 2 ^ (0:ℕ) := by
      norm_num at hvdiv ⊢
      linarith
    rw [truncInt_of_nonneg (by linarith)]
    have hfloor : (1:ℤ) ≤ ⌊(0.5 - Real.log ((1 + -c) / (1 - -c)) / (4 * Real.pi)) * 2 ^ (0:ℕ)⌋ :=
      Int.le_floor.2 (by exact_mod_cast hv)
    omega

/-! ### Projection error behaviour (claim C2) -/

theorem sin_lat_lt_one {latitude : ℝ} (h2 : latitude < 90) (h1 : -90 < latitude) :
    Real.sin (latitude * Real.pi / 180) < 1 := by
  have hπ := Real.pi_pos
  have hu : latitude * Real.pi < 90 * Real.pi := mul_lt_mul_of_pos_right h2 hπ
  have hl : -90 * Real.pi < latitude * Real.pi := mul_lt_mul_of_pos_right h1 hπ
  calc Real.sin (latitude * Real.pi / 180)
      < Real.sin (Real.pi / 2) := by
        refine Real.strictMonoOn_sin ⟨by linarith, by linarith⟩
          ⟨by linarith, by linarith⟩ (by linarith)
    _ = 1 := Real.sin_pi_div_two

theorem neg_one_lt_sin_lat {latitude : ℝ} (h2 : latitude < 90) (h1 : -90 < latitude) :
    -1 < Real.sin (latitude * Real.pi / 180) := by
  have hπ := Real.pi_pos
  have hu : latitude * Real.pi < 90 * Real.pi := mul_lt_mul_of_pos_right h2 hπ
  have hl : -90 * Real.pi < latitude * Real.pi := mul_lt_mul_of_pos_right h1 hπ
  calc (-1 : ℝ) = Real.sin (-(Real.pi / 2)) := by
        rw [Real.sin_neg, Real.sin_pi_div_two]
    _ < Real.sin (latitude * Real.pi / 180) := by
        refine Real.strictMonoOn_sin ⟨by linarith, by linarith⟩
          ⟨by linarith, by linarith⟩ (by linarith)

/-- C2 (amended): for every latitude strictly between -90 and 90 (any
longitude and level) `find_tile` raises no error: the checked evaluation
succeeds and returns the projected tile. -/
theorem find_tile_checked_ok (latitude longitude : ℝ) (level : ℕ)
    (h1 : -90 < latitude) (h2 : latitude < 90) :
    find_tile_checked latitude longitude level
      = .ok (find_tile latitude longitude level) := by
  have hs1 : Real.sin (latitude * Real.pi / 180) < 1 := sin_lat_lt_one h2 h1
  have hs2 : -1 < Real.sin (latitude * Real.pi / 180) := neg_one_lt_sin_lat h2 h1
  simp only [find_tile_checked]
  rw [if_neg (by intro h; linarith), if_neg]
  intro h
  have hpos : 0 < (1 + Real.sin (latitude * Real.pi / 180))
      / (1 - Real.sin (latitude * Real.pi / 180)) :=
    div_pos (by linarith) (by linarith)
  linarith

/-- C2 witness: at latitude 0 no error is raised. -/
theorem find_tile_checked_ok_witness :
    find_tile_checked 0 0 0 = .ok (find_tile 0 0 0) :=
  find_tile_checked_ok 0 0 0 (by norm_num) (by norm_num)

/-- C2 counterexample: at `lat = +90` the code hits `ZeroDivisionError`
(`(1+1)/(1-1)`), and at `lat = -90` it hits `ValueError: math domain
error` (`log 0`) — i.e. `find_tile` raises instead of surfacing an
infinite/NaN result; moreover the raising inputs are not limited to
`lat = ±90`: `lat = 270` also raises, so "for all other inputs it raises
no error" fails too. -/
theorem find_tile_checked_raises :
    find_tile_checked 90 0 0 = .error "float division by zero" ∧
      find_tile_checked (-90) 0 0 = .error "math domain error" ∧
      find_tile_checked 270 0 0 = .error "math domain error" := by
  refine ⟨?_, ?_, ?_⟩
  · simp only [find_tile_checked]
    rw [show (90:ℝ) * Real.pi / 180 = Real.pi / 2 by ring, Real.sin_pi_div_two]
    norm_num
  · simp only [find_tile_checked]
    rw [show (-90:ℝ) * Real.pi / 180 = -(Real.pi / 2) by ring, Real.sin_neg,
      Real.sin_pi_div_two]
    norm_num
  · simp only [find_tile_checked]
    rw [show (270:ℝ) * Real.pi / 180 = Real.pi + Real.pi / 2 by ring, Real.sin_add,
      Real.sin_pi, Real.cos_pi, Real.sin_pi_div_two, Real.cos_pi_div_two]
    norm_num

/-! ### Tile enumeration (claim C3) -/

theorem intRange_length (a b : Int) : (intRange a b).length = (b - a).toNat := by
  rw [intRange, List.length_map, List.length_range]

theorem intRange_nodup (a b : Int) : (intRange a b).Nodup := by
  rw [intRange]
  refine List.Nodup.map ?_ (List.nodup_range _)
  intro i j h
  dsimp only at h
  omega

theorem length_flatMap_const {α β : Type} (l : List α) (f : α → List β) (k : ℕ)
    (h : ∀ x ∈ l, (f x).length = k) : (l.flatMap f).length = l.length * k := by
  induction l with
  | nil => simp
  | cons a tl ih =>
      simp only [List.flatMap_cons, List.length_append, List.length_cons]
      rw [h a (by simp), ih (fun x hx => h x (by simp [hx]))]
      ring

/-- C3 (amended): with corners ordered so that `x1 ≤ x2` and `y1 ≤ y2`, the
enumeration of `crawl_box` yields exactly `(x2-x1+1) * (y2-y1+1)` tiles and
they are pairwise distinct; in particular identical corners yield one tile. -/
theorem enumerateTiles_count_nodup (c1 c2 : Tile)
    (hx : c1.x ≤ c2.x) (hy : c1.y ≤ c2.y) :
    ((enumerateTiles c1 c2).length : Int) = (c2.x - c1.x + 1) * (c2.y - c1.y + 1) ∧
      (enumerateTiles c1 c2).Nodup := by
  constructor
  · have hlen : (enumerateTiles c1 c2).length
        = (c2.x + 1 - c1.x).toNat * (c2.y + 1 - c1.y).toNat := by
      unfold enumerateTiles
      rw [length_flatMap_const _ _ ((c2.y + 1 - c1.y).toNat)
        (fun x _ => by simp [intRange_length])]
      rw [intRange_length]
    rw [hlen]
    push_cast [Int.toNat_of_nonneg (by omega : (0:Int) ≤ c2.x + 1 - c1.x),
      Int.toNat_of_nonneg (by omega : (0:Int) ≤ c2.y + 1 - c1.y)]
    ring
  · unfold enumerateTiles
    rw [List.nodup_flatMap]
    constructor
    · intro x _
      refine List.Nodup.map ?_ (intRange_nodup _ _)
      intro i j h
      simpa using congrArg Tile.y h
    · refine List.Pairwise.imp ?_ (intRange_nodup c1.x (c2.x + 1))
      intro x₁ x₂ hne t ht1 ht2
      simp only [List.mem_map] at ht1 ht2
      obtain ⟨y₁, _, rfl⟩ := ht1
      obtain ⟨y₂, _, h⟩ := ht2
      exact hne (by simpa using congrArg Tile.x h.symm)

/-- C3 counterexample: with corners given in non-normalized order
(`x1 > x2`), `crawl_box` iterates an empty `range` and enumerates 0 tiles,
not the `(|x2-x1|+1) * (|y2-y1|+1) = 2` the claim promises. -/
theorem enumerateTiles_reversed_corners_empty :
    (enumerateTiles { x := 1, y := 0, z := 0 } { x := 0, y := 0, z := 0 }).length
      ≠ (((0:Int) - 1).natAbs + 1) * (((0:Int) - 0).natAbs + 1) := by
  decide

/-- C3 witness: identical corners enumerate exactly one tile. -/
theorem enumerateTiles_single_tile :
    ((enumerateTiles { x := 5, y := 7, z := 3 } { x := 5, y := 7, z := 3 }).length : Int)
        = ((5:Int) - 5 + 1) * ((7:Int) - 7 + 1) ∧
      (enumerateTiles { x := 5, y := 7, z := 3 } { x := 5, y := 7, z := 3 }).Nodup :=
  enumerateTiles_count_nodup _ _ (by decide) (by decide)

/-! ### Path construction (claim C5) -/

/-- Substitution of one `format` replacement field against a `Tile`, as in
`path.format(x=tile.x, y=tile.y, z=tile.z)` (`Crawler.replace_path_tile`).
The templates of this program only ever use the fields `x`, `y` and `z`;
an unknown field is kept verbatim. -/
def substField (t : Tile) (name : List Char) : String :=
  if name = ['x'] then toString t.x
  else if name = ['y'] then toString t.y
  else if name = ['z'] then toString t.z
  else "\x7b" ++ String.mk name ++ "\x7d"

/-- Scan a replacement-field name up to the closing brace. -/
def takeField : List Char → List Char × List Char
  | [] => ([], [])
  | c :: rest =>
    if c = '}' then ([], rest)
    else ((c :: (takeField rest).1, (takeField rest).2))

theorem takeField_snd_length (l : List Char) : (takeField l).2.length ≤ l.length := by
  induction l with
  | nil => simp [takeField]
  | cons c rest ih =>
      simp only [takeField]
      split
      · simp
      · simpa using Nat.le_succ_of_le ih

/-- The scanning loop of Python's `str.format`: literal characters are
copied, replacement fields are substituted via `substField`. -/
def formatAux (t : Tile) : List Char → List Char
  | [] => []
  | c :: rest =>
    if c = '{' then
      (substField t (takeField rest).1).data ++ formatAux t (takeField rest).2
    else c :: formatAux t rest
termination_by l => l.length
decreasing_by
  · exact Nat.lt_succ_of_le (takeField_snd_length rest)
  · exact Nat.lt_succ_self _

/-- Model of `Crawler.replace_path_tile`:
`path.format(x=tile.x, y=tile.y, z=tile.z)`. -/
def replace_path_tile (path : String) (tile : Tile) : String :=
  String.mk (formatAux tile path.data)

/-- The `path_template` field set in `Crawler.__init__`. -/
def path_template : String := "{z}/{x}/{y}"

theorem replace_path_tile_eq (t : Tile) :
    replace_path_tile path_template t
      = toString t.z ++ "/" ++ toString t.x ++ "/" ++ toString t.y := by
  simp [replace_path_tile, path_template, formatAux, takeField, substField]
  rcases toString t.z with ⟨a⟩
  rcases toString t.x with ⟨b⟩
  rcases toString t.y with ⟨c⟩
  show String.mk _ = String.mk _
  refine congrArg String.mk ?_
  simp

/-- Is `c` a character CPython's `urlsplit` accepts inside a URL scheme? -/
def isSchemeChar (c : Char) : Bool :=
  c.isAlphanum || c = '+' || c = '-' || c = '.'

/-- Strip a leading `scheme:` as `urllib.parse.urlsplit` does: the first
colon ends the scheme when the run before it starts with a letter and
consists of scheme characters. -/
def dropScheme (l : List Char) : List Char :=
  let pre := l.takeWhile (fun c => c ≠ ':')
  if pre.length < l.length && (pre.headD '0').isAlpha && pre.all isSchemeChar then
    l.drop (pre.length + 1)
  else l

/-- Strip a leading `//netloc` as `urllib.parse.urlsplit` does: when the
remainder starts with `//`, the network location extends to the next
`/`, `?` or `#`. -/
def dropNetloc : List Char → List Char
  | '/' :: '/' :: rest => rest.dropWhile (fun c => c ≠ '/' && c ≠ '?' && c ≠ '#')
  | l => l

/-- Model of the external collaborator `urllib.parse.urlparse(url).path`:
scheme and netloc are stripped and the path stops at the query or
fragment delimiter. -/
def urlparsePath (url : String) : String :=
  String.mk ((dropNetloc (dropScheme url.data)).takeWhile (fun c => c ≠ '?' && c ≠ '#'))

/-- Model of `pathlib.PurePath.name`: the last path component, ignoring
empty and `.` components. -/
def pathName (p : String) : String :=
  ((p.splitOn "/").filter (fun comp => comp ≠ "" && comp ≠ ".")).getLastD ""

/-- Model of the external collaborator `pathlib.Path(p).suffix`: the file
extension of the final component — `name[i:]` for `i = name.rfind('.')`
when `0 < i < len(name) - 1`, else the empty string. -/
def pathSuffix (p : String) : String :=
  let name := (pathName p).data
  let after := (name.reverse.takeWhile (fun c => c ≠ '.')).reverse
  if after.length + 1 < name.length && 0 < after.length then
    String.mk ('.' :: after)
  else ""

/-- The per-tile source URL of `Crawler.crawl_box`:
`source = self.replace_path_tile(url, tile)`. -/
def mkSource (url : String) (tile : Tile) : String :=
  replace_path_tile url tile

/-- The per-tile target path of `Crawler.crawl_box`:
`target = f"{folder}/{self.replace_path_tile(self.path_template, tile)}{path.suffix}"`
with `path = Path(urlparse(url).path)`. -/
def mkTarget (folder url : String) (tile : Tile) : String :=
  folder ++ "/" ++ replace_path_tile path_template tile ++ pathSuffix (urlparsePath url)

/-- C5: for every tile and URL template, the constructed target path is
`{target-folder}/{z}/{x}/{y}{ext}`, where `{ext}` is the extension taken
from the URL template's path component (`pathSuffix (urlparsePath url)`),
a term that does not depend on the tile — hence the extension is the same
for every tile of a run. -/
theorem mkTarget_layout (folder url : String) (t : Tile) :
    mkTarget folder url t
      = folder ++ "/" ++ toString t.z ++ "/" ++ toString t.x ++ "/" ++ toString t.y
          ++ pathSuffix (urlparsePath url) := by
  rw [mkTarget, replace_path_tile_eq]
  simp [String.append_assoc]

/-! ### Fetch-and-persist (claims C4 and C9) -/

/-- Model of POSIX `os.path.dirname`: everything before the last `/`, with
trailing slashes stripped from the head unless the head is all slashes. -/
def dirname (p : String) : String :=
  let cs := p.data
  let afterRev := cs.reverse.takeWhile (fun c => c ≠ '/')
  let head := cs.take (cs.length - afterRev.length)
  if head ≠ [] && !(head.all (fun c => c = '/')) then
    String.mk (head.reverse.dropWhile (fun c => c = '/')).reverse
  else
    String.mk head

/-- An HTTP response as `download_tile` observes it: a status code and the
body bytes returned by `resp.read()`. -/
structure HttpResponse where
  status : Nat
  body : List Nat
deriving DecidableEq, Repr

/-- The filesystem state a task can affect: the set of directories that
exist and the files written, as an association list from path to bytes. -/
structure FileSystem where
  dirs : List String
  files : List (String × List Nat)
deriving DecidableEq, Repr

/-- The chain of proper ancestors of a path, produced by iterating
`dirname` until it reaches a fixpoint or the empty string; the fuel
argument (instantiated with the path length, which iterated `dirname`
never exceeds) makes the recursion structural. -/
def dirnameChain : Nat → String → List String
  | 0, _ => []
  | fuel + 1, p =>
    let d := dirname p
    if d = p || d = "" then []
    else d :: dirnameChain fuel d

/-- Model of `os.makedirs(name, exist_ok=True)`: creates the directory and,
recursively, its missing ancestors (tolerating ones that exist). -/
def FileSystem.makedirs (fs : FileSystem) (name : String) : FileSystem :=
  { fs with dirs := name :: (dirnameChain name.length name ++ fs.dirs) }

/-- Look up a file's bytes. -/
def FileSystem.readFile (fs : FileSystem) (p : String) : Option (List Nat) :=
  fs.files.lookup p

/-- Model of `Crawler.download_tile`, state-passing over the filesystem model.
`net` is what `session.get(source)` produces: `.ok resp` for a completed
HTTP exchange, `.error e` for a network-level failure (the exception
`aiohttp` would raise).  The code first runs
`os.makedirs(os.path.dirname(target), exist_ok=True)`, then performs the
GET; on status 200 it writes the body to `target`, otherwise it raises
`Exception(f"{source} returned status {resp.status}")`.  The returned
pair is the filesystem after the call together with its outcome, so the
side effects of raising runs remain observable. -/
def download_tile (fs : FileSystem) (net : Except String HttpResponse)
    (source target : String) : FileSystem × Except String Unit :=
  let fs1 := fs.makedirs (dirname target)
  match net with
  | .error e => (fs1, .error e)
  | .ok resp =>
    if resp.status = 200 then
      ({ fs1 with files := (target, resp.body) :: fs1.files }, .ok ())
    else
      (fs1, .error (source ++ " returned status " ++ toString resp.status))

/-- C4: when the fetch returns any status other than 200, `download_tile`
fails with the message `f"{source} returned status {resp.status}"` — which
contains the source URL and the status code verbatim — and writes no file:
the file table is exactly the one it started with, so in particular no
file appears at the tile's target path. -/
theorem download_tile_non_200 (fs : FileSystem) (resp : HttpResponse)
    (source target : String) (h : resp.status ≠ 200) :
    (download_tile fs (.ok resp) source target).2
        = .error (source ++ " returned status " ++ toString resp.status) ∧
      (download_tile fs (.ok resp) source target).1.files = fs.files := by
  simp [download_tile, FileSystem.makedirs, h]

/-- C4 witness: a 404 response on an empty filesystem fails with the
descriptive reason and creates no file. -/
theorem download_tile_404_witness :
    (download_tile ⟨[], []⟩ (.ok ⟨404, [1, 2, 3]⟩) "http://h/1/2/3.png" "out/1/2/3.png").2
        = .error ("http://h/1/2/3.png" ++ " returned status " ++ toString 404) ∧
      (download_tile ⟨[], []⟩ (.ok ⟨404, [1, 2, 3]⟩) "http://h/1/2/3.png" "out/1/2/3.png").1.files
        = (⟨[], []⟩ : FileSystem).files :=
  download_tile_non_200 ⟨[], []⟩ ⟨404, [1, 2, 3]⟩ "http://h/1/2/3.png" "out/1/2/3.png"
    (by decide)

/-- C9: `download_tile` runs `os.makedirs` on the target's parent before
issuing the GET: whatever the network outcome — including network errors
and non-200 statuses — the directories of the resulting filesystem are
exactly those after `makedirs (dirname target)`, and the target's parent
directory is among them. -/
theorem download_tile_creates_parent (fs : FileSystem)
    (net : Except String HttpResponse) (source target : String) :
    (download_tile fs net source target).1.dirs
        = (fs.makedirs (dirname target)).dirs ∧
      dirname target ∈ (download_tile fs net source target).1.dirs := by
  constructor
  · rcases net with e | resp
    · rfl
    · by_cases h : resp.status = 200 <;> simp [download_tile, h]
  · have hmem : dirname target ∈ (fs.makedirs (dirname target)).dirs := by
      simp [FileSystem.makedirs]
    rcases net with e | resp
    · exact hmem
    · by_cases h : resp.status = 200 <;> simpa [download_tile, h] using hmem

/-! ### Bounded worker pool (claims C6, C7, C8, C10) -/

/-- The scheduler state of `crawl_box`: the queued-but-not-yet-taken
tasks (the `asyncio.Queue` contents, in order), one slot per worker
coroutine (`some a` while the worker is awaiting task `a`, `none` while it
is between tasks), and the number of `queue.task_done()` /
`progress.update(1)` calls made so far. -/
structure PoolState (α : Type) where
  pending : List α
  workers : List (Option α)
  completed : Nat
deriving DecidableEq, Repr

/-- The number of in-flight tasks. -/
def runningCount {α : Type} (s : PoolState α) : Nat :=
  s.workers.countP (fun w => w.isSome)

/-- One scheduler transition of `worker`/`crawl_box`: either an idle
worker dequeues the next task (`task_coro = await queue.get()`), or an
in-flight worker finishes its task — normally or by raising, the
exception being swallowed by the `try/except` — and in the `finally`
block calls `queue.task_done()` and `progress.update(1)`, incrementing
the completion counter by exactly one. -/
inductive PoolStep {α : Type} : PoolState α → PoolState α → Prop
  | take (s : PoolState α) (i : Nat) (a : α) (rest : List α)
      (hp : s.pending = a :: rest) (hw : s.workers[i]? = some none) :
      PoolStep s ⟨rest, s.workers.set i (some a), s.completed⟩
  | finish (s : PoolState α) (i : Nat) (a : α)
      (hw : s.workers[i]? = some (some a)) :
      PoolStep s ⟨s.pending, s.workers.set i none, s.completed + 1⟩

/-- Reachability by scheduler transitions. -/
def PoolReach {α : Type} : PoolState α → PoolState α → Prop :=
  Relation.ReflTransGen PoolStep

/-- The scheduler state right after `crawl_box` has enqueued the tasks and
created the workers: the full task list pending, all workers idle, zero
completions. -/
def initState {α : Type} (tasks : List α) (numWorkers : Nat) : PoolState α :=
  ⟨tasks, List.replicate numWorkers none, 0⟩

theorem countP_set_of_getElem {α : Type} (p : Option α → Bool) :
    ∀ (l : List (Option α)) (i : Nat) (x y : Option α), l[i]? = some x →
      (l.set i y).countP p + (if p x then 1 else 0)
        = l.countP p + (if p y then 1 else 0) := by
  intro l
  induction l with
  | nil => intro i x y h; simp at h
  | cons a tl ih =>
      intro i x y h
      cases i with
      | zero =>
          simp only [List.getElem?_cons_zero, Option.some.injEq] at h
          subst h
          simp [List.countP_cons]
          omega
      | succ j =>
          simp only [List.getElem?_cons_succ] at h
          simp only [List.set_cons_succ, List.countP_cons]
          have := ih j x y h
          omega

theorem countP_isSome_replicate_none {α : Type} (n : Nat) :
    (List.replicate n (none : Option α)).countP (fun w => w.isSome) = 0 := by
  induction n with
  | zero => rfl
  | succ m ih => simp [List.replicate_succ, List.countP_cons, ih]

/-- The conservation invariant of the pool: completions, queued tasks and
in-flight tasks always account for the whole task list, and the worker
count never changes. -/
theorem poolStep_preserves {α : Type} {s t : PoolState α} (h : PoolStep s t) :
    t.completed + t.pending.length + runningCount t
        = s.completed + s.pending.length + runningCount s ∧
      t.workers.length = s.workers.length := by
  rcases h with ⟨i, a, rest, hp, hw⟩ | ⟨i, a, hw⟩
  · have hcount := countP_set_of_getElem (fun w => w.isSome) s.workers i none (some a) hw
    simp at hcount
    refine ⟨?_, by simp [List.length_set]⟩
    have hlen : s.pending.length = rest.length + 1 := by rw [hp]; rfl
    simp only [runningCount]
    omega
  · have hcount := countP_set_of_getElem (fun w => w.isSome) s.workers i (some a) none hw
    simp at hcount
    refine ⟨?_, by simp [List.length_set]⟩
    simp only [runningCount]
    omega

theorem pool_invariant {α : Type} (tasks : List α) (n : Nat) (s : PoolState α)
    (h : PoolReach (initState tasks n) s) :
    s.completed + s.pending.length + runningCount s = tasks.length ∧
      s.workers.length = n := by
  induction h with
  | refl =>
      constructor
      · simp [initState, runningCount, countP_isSome_replicate_none]
      · simp [initState]
  | tail _ hstep ih =>
      have hp := poolStep_preserves hstep
      exact ⟨by omega, by omega⟩

theorem poolStep_completed_le {α : Type} {s t : PoolState α} (h : PoolStep s t) :
    s.completed ≤ t.completed := by
  rcases h with ⟨i, a, rest, hp, hw⟩ | ⟨i, a, hw⟩ <;> simp

/-- C6: failure isolation and completion accounting.  Every transition —
including a worker finishing a task that raised, since the exception is
caught inside the worker — leaves the completion counter monotonically
non-decreasing, and in every reachable state the counter equals the
number of tasks that have left the pending queue and are no longer in
flight: each task (success or failure alike) contributes exactly one
increment, on its single finish transition. -/
theorem worker_failure_isolation (tasks : List (Except String Unit)) (n : Nat)
    (s t : PoolState (Except String Unit))
    (h : PoolReach (initState tasks n) s) :
    s.completed + s.pending.length + runningCount s = tasks.length ∧
      (PoolStep s t → s.completed ≤ t.completed) :=
  ⟨(pool_invariant tasks n s h).1, fun hstep => poolStep_completed_le hstep⟩

/-- C6 witness: the initial state of a one-task, one-worker pool satisfies
the accounting invariant and counter monotonicity. -/
theorem worker_failure_isolation_witness :
    ((initState [(Except.error "boom" : Except String Unit)] 1).completed
        + (initState [(Except.error "boom" : Except String Unit)] 1).pending.length
        + runningCount (initState [(Except.error "boom" : Except String Unit)] 1)
      = [(Except.error "boom" : Except String Unit)].length) ∧
      (PoolStep (initState [(Except.error "boom" : Except String Unit)] 1)
          (initState [(Except.error "boom" : Except String Unit)] 1) →
        (initState [(Except.error "boom" : Except String Unit)] 1).completed
          ≤ (initState [(Except.error "boom" : Except String Unit)] 1).completed) :=
  worker_failure_isolation [Except.error "boom"] 1 _ _ Relation.ReflTransGen.refl

/-- C7: `crawl_box` returns from `await queue.join()` only once
`task_done` has been called for every enqueued task
(`completed = tasks.length`); in any reachable state where that holds, no
task is pending and no task is in flight — every task is terminal. -/
theorem runPool_returns_all_terminal {α : Type} (tasks : List α) (n : Nat)
    (s : PoolState α) (h : PoolReach (initState tasks n) s)
    (hdone : s.completed = tasks.length) :
    s.pending = [] ∧ runningCount s = 0 := by
  have hinv := (pool_invariant tasks n s h).1
  have hlen : s.pending.length = 0 ∧ runningCount s = 0 := by omega
  exact ⟨List.eq_nil_of_length_eq_zero hlen.1, hlen.2⟩

/-- C7 witness: the empty task set is terminal at the initial state. -/
theorem runPool_returns_all_terminal_witness :
    (initState ([] : List Bool) 2).pending = []
      ∧ runningCount (initState ([] : List Bool) 2) = 0 :=
  runPool_returns_all_terminal [] 2 _ Relation.ReflTransGen.refl rfl

/-- C8: in every reachable state of a pool started with `numWorkers`
workers, at most `numWorkers` tasks are in flight — the fixed worker
vector bounds concurrent fetches regardless of how many tiles were
enqueued. -/
theorem pool_concurrency_bounded {α : Type} (tasks : List α) (n : Nat)
    (s : PoolState α) (h : PoolReach (initState tasks n) s) :
    runningCount s ≤ n := by
  have hlen := (pool_invariant tasks n s h).2
  calc runningCount s ≤ s.workers.length := List.countP_le_length _
    _ = n := hlen

/-- C8 witness: a freshly started pool with one worker and one queued task
has at most one task in flight. -/
theorem pool_concurrency_bounded_witness :
    runningCount (initState [true] 1) ≤ 1 :=
  pool_concurrency_bounded [true] 1 _ Relation.ReflTransGen.refl

/-- A fetch task as `crawl_box` builds it: the tile with the source URL
and target path of its `download_tile(session, source, target)`
coroutine. -/
structure FetchTask where
  tile : Tile
  sourceURL : String
  targetPath : String
deriving DecidableEq, Repr

/-- One enqueued coroutine of `crawl_box`. -/
def mkFetchTask (url folder : String) (t : Tile) : FetchTask :=
  { tile := t, sourceURL := mkSource url t, targetPath := mkTarget folder url t }

/-- The enqueue loop of `crawl_box`: `await queue.put(...)` once per
enumerated tile, in order, before any worker exists. -/
def buildQueue (url folder : String) (tiles : List Tile) : List FetchTask :=
  tiles.foldl (fun q t => q ++ [mkFetchTask url folder t]) []

theorem foldl_enqueue_length (url folder : String) :
    ∀ (tiles : List Tile) (acc : List FetchTask),
      (tiles.foldl (fun q t => q ++ [mkFetchTask url folder t]) acc).length
        = acc.length + tiles.length := by
  intro tiles
  induction tiles with
  | nil => intro acc; simp
  | cons t tl ih =>
      intro acc
      simp only [List.foldl_cons, List.length_cons]
      rw [ih]
      simp
      omega

/-- The scheduler state of `crawl_box` at the moment the worker tasks are
created: the entire queue has been built, no worker exists yet (all slots
idle), nothing is completed. -/
def crawlBoxInit (corner1 corner2 : Tile) (url folder : String) (n : Nat) :
    PoolState FetchTask :=
  initState (buildQueue url folder (enumerateTiles corner1 corner2)) n

/-- C10: `crawl_box` materializes the full task set before starting any
worker: when the first worker starts, the queue size equals the number of
enumerated tiles of the rectangle, no task is in flight, and nothing has
completed. -/
theorem crawlBoxInit_fully_enqueued (corner1 corner2 : Tile)
    (url folder : String) (n : Nat) :
    (crawlBoxInit corner1 corner2 url folder n).pending.length
        = (enumerateTiles corner1 corner2).length ∧
      runningCount (crawlBoxInit corner1 corner2 url folder n) = 0 ∧
      (crawlBoxInit corner1 corner2 url folder n).completed = 0 := by
  refine ⟨?_, ?_, rfl⟩
  · simp [crawlBoxInit, initState, buildQueue,
      foldl_enqueue_length url folder (enumerateTiles corner1 corner2) []]
  · simp [crawlBoxInit, initState, runningCount, countP_isSome_replicate_none]

end Crawler
